import Mathlib

set_option linter.unusedVariables false

namespace lunasvg

/-!
Shallow embedding of the lunasvg graphics core (source/graphics.cpp).
Float arithmetic of the source is embedded exactly over the rationals.
Functions of the plutovg backend that the source calls are not part of the
source tree; they are modelled from the specification, each with a doc
comment starting with "Modelled from the spec:".
-/

/-- Two-dimensional point, as in the Point value type of the data model. -/
structure Point where
  x : ℚ
  y : ℚ
  deriving DecidableEq, Repr

/-- Axis-aligned rectangle, as in the Rect value type of the data model. -/
structure Rect where
  x : ℚ
  y : ℚ
  w : ℚ
  h : ℚ
  deriving DecidableEq, Repr

/-- The Rect::Empty sentinel (0,0,0,0). -/
def Rect.Empty : Rect := ⟨0, 0, 0, 0⟩

/-- The Rect::Invalid sentinel (0,0,-1,-1). -/
def Rect.Invalid : Rect := ⟨0, 0, -1, -1⟩

/-- Modelled from the spec: Rect::isValid is declared in graphics.h which is not
under src; a rect is valid iff w ≥ 0 and h ≥ 0. -/
def Rect.isValid (r : Rect) : Bool := decide (0 ≤ r.w) && decide (0 ≤ r.h)

/-- Affine transform, six coefficients a b c d e f representing the matrix
with rows (a, c, e), (b, d, f), (0, 0, 1). -/
structure Transform where
  a : ℚ
  b : ℚ
  c : ℚ
  d : ℚ
  e : ℚ
  f : ℚ
  deriving DecidableEq, Repr

/-- Modelled from the spec: plutovg_matrix_map is not under src; the matrix
with rows (a, c, e), (b, d, f), (0, 0, 1) acts on the column vector (x, y, 1). -/
def plutovg_matrix_map (m : Transform) (p : Point) : Point :=
  Point.mk (m.a * p.x + m.c * p.y + m.e) (m.b * p.x + m.d * p.y + m.f)

/-- Modelled from the spec: plutovg_matrix_multiply is not under src; it
composes so that mapping a point by the result equals mapping by the first
argument first and then by the second argument (the caller Transform::operator*
passes the right-hand transform as the first argument to obtain the
"argument applied to coordinates first" composition the spec requires). -/
def plutovg_matrix_multiply (l r : Transform) : Transform :=
  Transform.mk
    (r.a * l.a + r.c * l.b) (r.b * l.a + r.d * l.b)
    (r.a * l.c + r.c * l.d) (r.b * l.c + r.d * l.d)
    (r.a * l.e + r.c * l.f + r.e) (r.b * l.e + r.d * l.f + r.f)

/-- Transform::operator* (graphics.cpp, line 39): the argument transform is
passed as the first operand of plutovg_matrix_multiply, the receiver as the
second. -/
def Transform.mul (self t : Transform) : Transform := plutovg_matrix_multiply t self

/-- Transform::multiply (graphics.cpp, line 51): self becomes self * t. -/
def Transform.multiply (self t : Transform) : Transform := self.mul t

/-- Transform::postMultiply (graphics.cpp, line 81): self becomes t * self. -/
def Transform.postMultiply (self t : Transform) : Transform := t.mul self

/-- Transform::mapPoint (graphics.cpp, line 129). -/
def Transform.mapPoint (m : Transform) (p : Point) : Point := plutovg_matrix_map m p

/-- The Transform::Identity constant (graphics.cpp, line 22). -/
def Transform.Identity : Transform := ⟨1, 0, 0, 1, 0, 0⟩

/-- Modelled from the spec: plutovg_matrix_map_rect is not under src; rect
mapping computes the bounding box of the four mapped corners. -/
def plutovg_matrix_map_rect (m : Transform) (r : Rect) : Rect :=
  let p1 := plutovg_matrix_map m ⟨r.x, r.y⟩
  let p2 := plutovg_matrix_map m ⟨r.x + r.w, r.y⟩
  let p3 := plutovg_matrix_map m ⟨r.x, r.y + r.h⟩
  let p4 := plutovg_matrix_map m ⟨r.x + r.w, r.y + r.h⟩
  let l := min (min p1.x p2.x) (min p3.x p4.x)
  let t := min (min p1.y p2.y) (min p3.y p4.y)
  let rr := max (max p1.x p2.x) (max p3.x p4.x)
  let bb := max (max p1.y p2.y) (max p3.y p4.y)
  Rect.mk l t (rr - l) (bb - t)

/-- Transform::mapRect (graphics.cpp, line 140): an invalid rect is returned
as the Invalid sentinel before any matrix arithmetic. -/
def Transform.mapRect (m : Transform) (r : Rect) : Rect :=
  if r.isValid then plutovg_matrix_map_rect m r else Rect.Invalid

/-- Canvas state relevant to the factory claims: the origin offset m_x, m_y
and the dimensions of the owned surface. -/
structure Canvas where
  x : Int
  y : Int
  surfaceWidth : Int
  surfaceHeight : Int
  deriving DecidableEq, Repr

/-- Modelled from the spec: plutovg_surface_create and the Canvas(int,int,int,int)
constructor body (graphics.cpp, line 556) allocate a surface of exactly the
requested dimensions; the surface accessors report them back. -/
def Canvas.ofInts (x y w h : Int) : Canvas := ⟨x, y, w, h⟩

/-- Canvas::width (graphics.cpp, line 514), via plutovg_surface_get_width. -/
def Canvas.width (c : Canvas) : Int := c.surfaceWidth

/-- Canvas::height (graphics.cpp, line 519), via plutovg_surface_get_height. -/
def Canvas.height (c : Canvas) : Int := c.surfaceHeight

/-- The kMaxSize constant of Canvas::create, 1 <<< 24. -/
def kMaxSize : ℚ := 2 ^ 24

/-- Canvas::create(float,float,float,float) (graphics.cpp, line 377):
degenerate or oversized extents fall back to a 1-by-1 surface at origin 0,0;
otherwise the surface covers the rect with floor/ceil integer bounds. -/
def Canvas.create4 (x y width height : ℚ) : Canvas :=
  if width ≤ 0 ∨ height ≤ 0 ∨ kMaxSize < width ∨ kMaxSize < height then
    Canvas.ofInts 0 0 1 1
  else
    Canvas.ofInts ⌊x⌋ ⌊y⌋ (⌈x + width⌉ - ⌊x⌋) (⌈y + height⌉ - ⌊y⌋)

/-- Truncation toward zero, the semantics of a C float-to-int cast. -/
def ratTrunc (q : ℚ) : Int := if 0 ≤ q then ⌊q⌋ else ⌈q⌉

/-- Canvas::create(const Rect&) (graphics.cpp, line 389): the four float
fields are converted to int by the implicit cast in the constructor call and
passed through with no validation. -/
def Canvas.createFromRect (r : Rect) : Canvas :=
  Canvas.ofInts (ratTrunc r.x) (ratTrunc r.y) (ratTrunc r.w) (ratTrunc r.h)

/-- C3: multiply composes with the argument applied to coordinates first,
postMultiply with the receiver applied first. -/
theorem transform_multiply_order (A B : Transform) (p : Point) :
    (A.multiply B).mapPoint p = A.mapPoint (B.mapPoint p) ∧
    (A.postMultiply B).mapPoint p = B.mapPoint (A.mapPoint p) := by
  constructor <;>
    · simp only [Transform.multiply, Transform.postMultiply, Transform.mul,
        Transform.mapPoint, plutovg_matrix_multiply, plutovg_matrix_map,
        Point.mk.injEq]
      constructor <;> ring

/-- C7: mapRect of a rect with negative width or height is the Invalid
sentinel, before any matrix arithmetic. -/
theorem mapRect_invalid_short_circuit (T : Transform) (R : Rect)
    (h : R.w < 0 ∨ R.h < 0) : T.mapRect R = Rect.Invalid := by
  have hv : R.isValid = false := by
    rcases h with h | h <;>
      simp [Rect.isValid, not_le.mpr h]
  simp [Transform.mapRect, hv]

/-- C7 witness: Transform::Identity.mapRect(Rect::Invalid) equals
Rect::Invalid. -/
theorem mapRect_invalid_short_circuit_witness :
    (Rect.Invalid.w < 0 ∨ Rect.Invalid.h < 0) ∧
      Transform.Identity.mapRect Rect.Invalid = Rect.Invalid :=
  ⟨Or.inl (by norm_num [Rect.Invalid]),
    mapRect_invalid_short_circuit Transform.Identity Rect.Invalid
      (Or.inl (by norm_num [Rect.Invalid]))⟩

/-- C4: a non-positive or oversized requested extent yields the 1-by-1
fallback canvas at origin 0,0. -/
theorem canvas_create_fallback (x y w h : ℚ)
    (hb : w ≤ 0 ∨ h ≤ 0 ∨ 2 ^ 24 < w ∨ 2 ^ 24 < h) :
    (Canvas.create4 x y w h).width = 1 ∧ (Canvas.create4 x y w h).height = 1 ∧
      (Canvas.create4 x y w h).x = 0 ∧ (Canvas.create4 x y w h).y = 0 := by
  have hc : Canvas.create4 x y w h = Canvas.ofInts 0 0 1 1 := by
    unfold Canvas.create4
    rw [if_pos]
    simpa [kMaxSize] using hb
  rw [hc]
  exact ⟨rfl, rfl, rfl, rfl⟩

/-- C4 witness: a zero-width request falls back to the 1-by-1 canvas. -/
theorem canvas_create_fallback_witness :
    ((0 : ℚ) ≤ 0 ∨ (5 : ℚ) ≤ 0 ∨ (2 : ℚ) ^ 24 < 0 ∨ (2 : ℚ) ^ 24 < 5) ∧
      (Canvas.create4 3 4 0 5).width = 1 ∧ (Canvas.create4 3 4 0 5).height = 1 ∧
      (Canvas.create4 3 4 0 5).x = 0 ∧ (Canvas.create4 3 4 0 5).y = 0 :=
  ⟨Or.inl le_rfl, canvas_create_fallback 3 4 0 5 (Or.inl le_rfl)⟩

/-- C6: for positive extents within the size cap, the canvas has integer
origin (floor x, floor y), extent given by the ceil/floor difference, and the
integer pixel region covers the requested rect. -/
theorem canvas_create_covers (x y w h : ℚ)
    (hw0 : 0 < w) (hw : w ≤ 2 ^ 24) (hh0 : 0 < h) (hh : h ≤ 2 ^ 24) :
    (Canvas.create4 x y w h).x = ⌊x⌋ ∧
    (Canvas.create4 x y w h).y = ⌊y⌋ ∧
    (Canvas.create4 x y w h).width = ⌈x + w⌉ - ⌊x⌋ ∧
    (Canvas.create4 x y w h).height = ⌈y + h⌉ - ⌊y⌋ ∧
    ((Canvas.create4 x y w h).x : ℚ) ≤ x ∧
    ((Canvas.create4 x y w h).y : ℚ) ≤ y ∧
    x + w ≤ (((Canvas.create4 x y w h).x + (Canvas.create4 x y w h).width : Int) : ℚ) ∧
    y + h ≤ (((Canvas.create4 x y w h).y + (Canvas.create4 x y w h).height : Int) : ℚ) := by
  have hc : Canvas.create4 x y w h =
      Canvas.ofInts ⌊x⌋ ⌊y⌋ (⌈x + w⌉ - ⌊x⌋) (⌈y + h⌉ - ⌊y⌋) := by
    unfold Canvas.create4
    rw [if_neg]
    push_neg
    exact ⟨hw0, hh0, by simpa [kMaxSize] using hw, by simpa [kMaxSize] using hh⟩
  rw [hc]
  refine ⟨rfl, rfl, rfl, rfl, Int.floor_le x, Int.floor_le y, ?_, ?_⟩
  · simp only [Canvas.ofInts, Canvas.width]
    push_cast
    linarith [Int.le_ceil (x + w)]
  · simp only [Canvas.ofInts, Canvas.height]
    push_cast
    linarith [Int.le_ceil (y + h)]

/-- C6 witness: creating over the rect (1/2, -3/2, 2, 3) gives origin (0, -2)
and extent 3-by-4 covering the rect. -/
theorem canvas_create_covers_witness :
    ((0 : ℚ) < 2 ∧ (2 : ℚ) ≤ 2 ^ 24 ∧ (0 : ℚ) < 3 ∧ (3 : ℚ) ≤ 2 ^ 24) ∧
      ((Canvas.create4 (1 / 2) (-3 / 2) 2 3).x = ⌊(1 / 2 : ℚ)⌋ ∧
       (Canvas.create4 (1 / 2) (-3 / 2) 2 3).y = ⌊(-3 / 2 : ℚ)⌋ ∧
       (Canvas.create4 (1 / 2) (-3 / 2) 2 3).width = ⌈(1 / 2 : ℚ) + 2⌉ - ⌊(1 / 2 : ℚ)⌋ ∧
       (Canvas.create4 (1 / 2) (-3 / 2) 2 3).height = ⌈(-3 / 2 : ℚ) + 3⌉ - ⌊(-3 / 2 : ℚ)⌋ ∧
       ((Canvas.create4 (1 / 2) (-3 / 2) 2 3).x : ℚ) ≤ 1 / 2 ∧
       ((Canvas.create4 (1 / 2) (-3 / 2) 2 3).y : ℚ) ≤ -3 / 2 ∧
       (1 / 2 : ℚ) + 2 ≤ (((Canvas.create4 (1 / 2) (-3 / 2) 2 3).x +
          (Canvas.create4 (1 / 2) (-3 / 2) 2 3).width : Int) : ℚ) ∧
       (-3 / 2 : ℚ) + 3 ≤ (((Canvas.create4 (1 / 2) (-3 / 2) 2 3).y +
          (Canvas.create4 (1 / 2) (-3 / 2) 2 3).height : Int) : ℚ)) :=
  ⟨⟨by norm_num, by norm_num, by norm_num, by norm_num⟩,
    canvas_create_covers (1 / 2) (-3 / 2) 2 3 (by norm_num) (by norm_num)
      (by norm_num) (by norm_num)⟩

/-- C10: the Rect overload of the canvas factory truncates the four fields to
int and passes them through unvalidated: no size cap and no 1-by-1 fallback,
as shown by an oversized and a negative extent. -/
theorem canvas_create_rect_no_validation :
    (∀ r : Rect,
      (Canvas.createFromRect r).x = ratTrunc r.x ∧
      (Canvas.createFromRect r).y = ratTrunc r.y ∧
      (Canvas.createFromRect r).width = ratTrunc r.w ∧
      (Canvas.createFromRect r).height = ratTrunc r.h) ∧
    (Canvas.createFromRect ⟨0, 0, 2 ^ 25, 7⟩).width = 2 ^ 25 ∧
    (Canvas.createFromRect ⟨0, 0, -3, -4⟩).width = -3 ∧
    (Canvas.createFromRect ⟨0, 0, -3, -4⟩).height = -4 := by
  refine ⟨fun r => ⟨rfl, rfl, rfl, rfl⟩, ?_, ?_, ?_⟩ <;> decide

/-- Abstract path segment command, as stored in a path command buffer:
MoveTo, LineTo, CubicTo and Close, each carrying its points (Close carries
the sub-path start point). -/
inductive PathSeg
  | moveTo (p : Point)
  | lineTo (p : Point)
  | cubicTo (p1 p2 p3 : Point)
  | close (p : Point)
  deriving DecidableEq, Repr

/-- A reference-counted path command buffer. -/
structure PathBuffer where
  refcount : Nat
  elements : List PathSeg
  deriving DecidableEq, Repr

/-- Modelled from the spec: the arena of reference-counted command buffers
the plutovg path objects live in, indexed by handle. -/
abbrev PathStore : Type := List PathBuffer

/-- A Path value holds a handle (m_data) into the store. -/
structure Path where
  data : Nat
  deriving DecidableEq, Repr

/-- Buffer lookup; a handle outside the store reads as a dead buffer with
reference count zero. -/
def getBuf (st : PathStore) (h : Nat) : PathBuffer := st.getD h ⟨0, []⟩

/-- Replace the element list of the buffer at a handle, keeping its
reference count. -/
def setElems (st : PathStore) (h : Nat) (f : List PathSeg → List PathSeg) : PathStore :=
  st.set h ⟨(getBuf st h).refcount, f (getBuf st h).elements⟩

/-- Modelled from the spec: plutovg_path_reference increments the buffer's
reference count. -/
def incRef (st : PathStore) (h : Nat) : PathStore :=
  st.set h ⟨(getBuf st h).refcount + 1, (getBuf st h).elements⟩

/-- Modelled from the spec: plutovg_path_destroy decrements the buffer's
reference count (the freeing of a dead buffer is not observable here). -/
def decRef (st : PathStore) (h : Nat) : PathStore :=
  st.set h ⟨(getBuf st h).refcount - 1, (getBuf st h).elements⟩

/-- Path::isUnique (graphics.cpp, line 320): the reference count is one. -/
def Path.isUnique (p : Path) (st : PathStore) : Bool :=
  (getBuf st p.data).refcount == 1

/-- Path::ensure (graphics.cpp, line 331): clone the buffer when it is
shared; the source does not release the old reference. The clone is a fresh
buffer with reference count one holding the same elements. -/
def Path.ensure (p : Path) (st : PathStore) : Path × PathStore :=
  if p.isUnique st then (p, st)
  else (⟨st.length⟩, st ++ [⟨1, (getBuf st p.data).elements⟩])

/-- Path copy constructor (graphics.cpp, line 216): share the buffer and
increment its reference count. -/
def Path.copyCtor (p : Path) (st : PathStore) : Path × PathStore :=
  (⟨p.data⟩, incRef st p.data)

/-- Path copy assignment (graphics.cpp, line 231): Path(path).swap(*this) —
the source handle gains a reference, the destination's old handle loses
one, and the destination now holds the source handle. -/
def Path.copyAssign (dst src : Path) (st : PathStore) : Path × PathStore :=
  (⟨src.data⟩, decRef (incRef st src.data) dst.data)

/-- End point of a segment (for Close, the stored sub-path start, which is
where the pen moves on closing). -/
def segEndPoint : PathSeg → Point
  | PathSeg.moveTo p => p
  | PathSeg.lineTo p => p
  | PathSeg.cubicTo _ _ p => p
  | PathSeg.close p => p

/-- Current pen position of a buffer: end point of the last segment, origin
for an empty buffer. -/
def lastPoint (segs : List PathSeg) : Point :=
  segs.getLast?.elim ⟨0, 0⟩ segEndPoint

/-- Start point of the current sub-path: the point of the last moveTo, origin
if none. -/
def subpathStart (segs : List PathSeg) : Point :=
  ((segs.filterMap fun s =>
      match s with
      | PathSeg.moveTo p => some p
      | _ => none).getLast?).elim ⟨0, 0⟩ id

/-- Modelled from the spec: plutovg_path_move_to appends a MoveTo command. -/
def plutovg_path_move_to (buf : List PathSeg) (x y : ℚ) : List PathSeg :=
  buf ++ [PathSeg.moveTo ⟨x, y⟩]

/-- Modelled from the spec: plutovg_path_line_to appends a LineTo command. -/
def plutovg_path_line_to (buf : List PathSeg) (x y : ℚ) : List PathSeg :=
  buf ++ [PathSeg.lineTo ⟨x, y⟩]

/-- Modelled from the spec: plutovg_path_cubic_to appends a CubicTo command. -/
def plutovg_path_cubic_to (buf : List PathSeg) (x1 y1 x2 y2 x3 y3 : ℚ) : List PathSeg :=
  buf ++ [PathSeg.cubicTo ⟨x1, y1⟩ ⟨x2, y2⟩ ⟨x3, y3⟩]

/-- Modelled from the spec: plutovg_path_quad_to appends the quadratic
segment degree-elevated to a cubic, with control points interpolated at 2/3
between the current point, the quadratic control point and the end point. -/
def plutovg_path_quad_to (buf : List PathSeg) (x1 y1 x2 y2 : ℚ) : List PathSeg :=
  let p0 := lastPoint buf
  plutovg_path_cubic_to buf
    (p0.x + 2 / 3 * (x1 - p0.x)) (p0.y + 2 / 3 * (y1 - p0.y))
    (x2 + 2 / 3 * (x1 - x2)) (y2 + 2 / 3 * (y1 - y2)) x2 y2

/-- Modelled from the spec: plutovg_path_close appends a Close command
recording the current sub-path start point. -/
def plutovg_path_close (buf : List PathSeg) : List PathSeg :=
  buf ++ [PathSeg.close (subpathStart buf)]

/-- Modelled from the spec: plutovg_path_arc_to converts the elliptical arc
to cubic segments ending at the target (the exact flattening uses
trigonometry; it is represented here by one cubic to the target), and with a
zero radius emits a line, per the spec's degenerate case. -/
def plutovg_path_arc_to (buf : List PathSeg) (rx ry xrot : ℚ)
    (largeArcFlag sweepFlag : Bool) (x y : ℚ) : List PathSeg :=
  if rx = 0 ∨ ry = 0 then plutovg_path_line_to buf x y
  else plutovg_path_cubic_to buf (lastPoint buf).x (lastPoint buf).y x y x y

/-- The circle-to-cubic control point constant. -/
def kappa : ℚ := 0.55228474983079339840

/-- Modelled from the spec: plutovg_path_add_ellipse appends a closed
sub-path of four cubic quarter arcs around the center. -/
def plutovg_path_add_ellipse (buf : List PathSeg) (cx cy rx ry : ℚ) : List PathSeg :=
  let b1 := plutovg_path_move_to buf (cx + rx) cy
  let b2 := plutovg_path_cubic_to b1 (cx + rx) (cy + ry * kappa)
    (cx + rx * kappa) (cy + ry) cx (cy + ry)
  let b3 := plutovg_path_cubic_to b2 (cx - rx * kappa) (cy + ry)
    (cx - rx) (cy + ry * kappa) (cx - rx) cy
  let b4 := plutovg_path_cubic_to b3 (cx - rx) (cy - ry * kappa)
    (cx - rx * kappa) (cy - ry) cx (cy - ry)
  let b5 := plutovg_path_cubic_to b4 (cx + rx * kappa) (cy - ry)
    (cx + rx) (cy - ry * kappa) (cx + rx) cy
  plutovg_path_close b5

/-- Modelled from the spec: plutovg_path_add_rect appends the closed
rectangle sub-path. -/
def plutovg_path_add_rect (buf : List PathSeg) (x y w h : ℚ) : List PathSeg :=
  let b1 := plutovg_path_move_to buf x y
  let b2 := plutovg_path_line_to b1 (x + w) y
  let b3 := plutovg_path_line_to b2 (x + w) (y + h)
  let b4 := plutovg_path_line_to b3 x (y + h)
  plutovg_path_close b4

/-- Modelled from the spec: plutovg_path_add_round_rect appends the closed
rounded-rectangle sub-path (radii clamped to half the extent; zero radii
degenerate to the plain rectangle). -/
def plutovg_path_add_round_rect (buf : List PathSeg) (x y w h rx0 ry0 : ℚ) : List PathSeg :=
  let rx := min rx0 (w / 2)
  let ry := min ry0 (h / 2)
  if rx ≤ 0 ∨ ry ≤ 0 then plutovg_path_add_rect buf x y w h
  else
    let b1 := plutovg_path_move_to buf (x + rx) y
    let b2 := plutovg_path_line_to b1 (x + w - rx) y
    let b3 := plutovg_path_cubic_to b2 (x + w - rx + rx * kappa) y
      (x + w) (y + ry - ry * kappa) (x + w) (y + ry)
    let b4 := plutovg_path_line_to b3 (x + w) (y + h - ry)
    let b5 := plutovg_path_cubic_to b4 (x + w) (y + h - ry + ry * kappa)
      (x + w - rx + rx * kappa) (y + h) (x + w - rx) (y + h)
    let b6 := plutovg_path_line_to b5 (x + rx) (y + h)
    let b7 := plutovg_path_cubic_to b6 (x + rx - rx * kappa) (y + h)
      x (y + h - ry + ry * kappa) x (y + h - ry)
    let b8 := plutovg_path_line_to b7 x (y + ry)
    let b9 := plutovg_path_cubic_to b8 x (y + ry - ry * kappa)
      (x + rx - rx * kappa) y (x + rx) y
    plutovg_path_close b9

/-- Modelled from the spec: plutovg_path_reset clears all commands. -/
def plutovg_path_reset (buf : List PathSeg) : List PathSeg := []


/-- Digit accumulator: consume leading digits, returning the value, the
number of digits consumed, and the rest of the input. -/
def readDigits (acc cnt : Nat) : List Char → Nat × Nat × List Char
  | [] => (acc, cnt, [])
  | c :: cs =>
    if c.isDigit then readDigits (acc * 10 + (c.toNat - 48)) (cnt + 1) cs
    else (acc, cnt, c :: cs)

/-- Unsigned decimal number: digits with an optional fraction part. -/
def parseUnsigned (cs : List Char) : Option (ℚ × List Char) :=
  match cs with
  | [] => none
  | c :: cs1 =>
    if c.isDigit then
      let r := readDigits (c.toNat - 48) 1 cs1
      match r.2.2 with
      | '.' :: d :: cs2 =>
        if d.isDigit then
          let fr := readDigits (d.toNat - 48) 1 cs2
          some ((r.1 : ℚ) + (fr.1 : ℚ) / (10 : ℚ) ^ fr.2.1, fr.2.2)
        else some ((r.1 : ℚ), '.' :: d :: cs2)
      | rest => some ((r.1 : ℚ), rest)
    else none

/-- Signed decimal number. -/
def parseNumber (cs : List Char) : Option (ℚ × List Char) :=
  match cs with
  | '-' :: cs1 => (parseUnsigned cs1).map fun r => (-r.1, r.2)
  | _ => parseUnsigned cs

/-- Skip blank and comma separators. -/
def skipSep : List Char → List Char
  | [] => []
  | c :: cs => if c = ' ' ∨ c = ',' then skipSep cs else c :: cs

/-- A coordinate: separators then a signed number. -/
def parseCoord (cs : List Char) : Option (ℚ × List Char) :=
  parseNumber (skipSep cs)

/-- Modelled from the spec: the path-data mini-language (a command letter
followed by numeric arguments; absolute M, L, C, Q, Z here), parsed into the
segment list, with the quadratic command degree-elevated to a cubic from the
current point; any malformed input yields none. Fuel bounds the recursion by
the input length. -/
def parseSegs (cur start : Point) : Nat → List Char → Option (List PathSeg)
  | _, [] => some []
  | 0, _ :: _ => none
  | fuel + 1, c :: cs =>
    if c = ' ' ∨ c = ',' then parseSegs cur start fuel cs
    else if c = 'M' then do
      let r1 ← parseCoord cs
      let r2 ← parseCoord r1.2
      let tail ← parseSegs ⟨r1.1, r2.1⟩ ⟨r1.1, r2.1⟩ fuel r2.2
      pure (PathSeg.moveTo ⟨r1.1, r2.1⟩ :: tail)
    else if c = 'L' then do
      let r1 ← parseCoord cs
      let r2 ← parseCoord r1.2
      let tail ← parseSegs ⟨r1.1, r2.1⟩ start fuel r2.2
      pure (PathSeg.lineTo ⟨r1.1, r2.1⟩ :: tail)
    else if c = 'C' then do
      let r1 ← parseCoord cs
      let r2 ← parseCoord r1.2
      let r3 ← parseCoord r2.2
      let r4 ← parseCoord r3.2
      let r5 ← parseCoord r4.2
      let r6 ← parseCoord r5.2
      let tail ← parseSegs ⟨r5.1, r6.1⟩ start fuel r6.2
      pure (PathSeg.cubicTo ⟨r1.1, r2.1⟩ ⟨r3.1, r4.1⟩ ⟨r5.1, r6.1⟩ :: tail)
    else if c = 'Q' then do
      let r1 ← parseCoord cs
      let r2 ← parseCoord r1.2
      let r3 ← parseCoord r2.2
      let r4 ← parseCoord r3.2
      let tail ← parseSegs ⟨r3.1, r4.1⟩ start fuel r4.2
      pure (PathSeg.cubicTo
        ⟨cur.x + 2 / 3 * (r1.1 - cur.x), cur.y + 2 / 3 * (r2.1 - cur.y)⟩
        ⟨r3.1 + 2 / 3 * (r1.1 - r3.1), r4.1 + 2 / 3 * (r2.1 - r4.1)⟩
        ⟨r3.1, r4.1⟩ :: tail)
    else if c = 'Z' then do
      let tail ← parseSegs start start fuel cs
      pure (PathSeg.close start :: tail)
    else none

/-- Entry point of the modelled path-data grammar. -/
def parsePathData (s : List Char) : Option (List PathSeg) :=
  parseSegs ⟨0, 0⟩ ⟨0, 0⟩ (s.length + 1) s

/-- Modelled from the spec: plutovg_path_parse parses the mini-language and
appends the parsed commands on success; on malformed input it reports
failure and leaves the buffer as it found it, never partially mutated. -/
def plutovg_path_parse (buf : List PathSeg) (s : List Char) : List PathSeg × Bool :=
  match parsePathData s with
  | some segs => (buf ++ segs, true)
  | none => (buf, false)

/-- Path::moveTo (graphics.cpp, line 243). -/
def Path.moveTo (p : Path) (x y : ℚ) (st : PathStore) : Path × PathStore :=
  let q := p.ensure st
  (q.1, setElems q.2 q.1.data fun buf => plutovg_path_move_to buf x y)

/-- Path::lineTo (graphics.cpp, line 248). -/
def Path.lineTo (p : Path) (x y : ℚ) (st : PathStore) : Path × PathStore :=
  let q := p.ensure st
  (q.1, setElems q.2 q.1.data fun buf => plutovg_path_line_to buf x y)

/-- Path::quadTo (graphics.cpp, line 253). -/
def Path.quadTo (p : Path) (x1 y1 x2 y2 : ℚ) (st : PathStore) : Path × PathStore :=
  let q := p.ensure st
  (q.1, setElems q.2 q.1.data fun buf => plutovg_path_quad_to buf x1 y1 x2 y2)

/-- Path::cubicTo (graphics.cpp, line 258). -/
def Path.cubicTo (p : Path) (x1 y1 x2 y2 x3 y3 : ℚ) (st : PathStore) : Path × PathStore :=
  let q := p.ensure st
  (q.1, setElems q.2 q.1.data fun buf => plutovg_path_cubic_to buf x1 y1 x2 y2 x3 y3)

/-- Path::arcTo (graphics.cpp, line 263). -/
def Path.arcTo (p : Path) (rx ry xAxisRotation : ℚ) (largeArcFlag sweepFlag : Bool)
    (x y : ℚ) (st : PathStore) : Path × PathStore :=
  let q := p.ensure st
  (q.1, setElems q.2 q.1.data fun buf =>
    plutovg_path_arc_to buf rx ry xAxisRotation largeArcFlag sweepFlag x y)

/-- Path::close (graphics.cpp, line 268). -/
def Path.close (p : Path) (st : PathStore) : Path × PathStore :=
  let q := p.ensure st
  (q.1, setElems q.2 q.1.data plutovg_path_close)

/-- Path::addEllipse (graphics.cpp, line 273). -/
def Path.addEllipse (p : Path) (cx cy rx ry : ℚ) (st : PathStore) : Path × PathStore :=
  let q := p.ensure st
  (q.1, setElems q.2 q.1.data fun buf => plutovg_path_add_ellipse buf cx cy rx ry)

/-- Path::addRoundRect (graphics.cpp, line 278). -/
def Path.addRoundRect (p : Path) (x y w h rx ry : ℚ) (st : PathStore) : Path × PathStore :=
  let q := p.ensure st
  (q.1, setElems q.2 q.1.data fun buf => plutovg_path_add_round_rect buf x y w h rx ry)

/-- Path::addRect (graphics.cpp, line 283). -/
def Path.addRect (p : Path) (x y w h : ℚ) (st : PathStore) : Path × PathStore :=
  let q := p.ensure st
  (q.1, setElems q.2 q.1.data fun buf => plutovg_path_add_rect buf x y w h)

/-- Path::reset (graphics.cpp, line 303). -/
def Path.reset (p : Path) (st : PathStore) : Path × PathStore :=
  let q := p.ensure st
  (q.1, setElems q.2 q.1.data plutovg_path_reset)

/-- Path::parse (graphics.cpp, line 325): reset the ensured buffer, then run
the parser on the ensured buffer, reporting the parser's verdict. -/
def Path.parse (p : Path) (s : List Char) (st : PathStore) : (Path × PathStore) × Bool :=
  let q1 := p.ensure st
  let st1 := setElems q1.2 q1.1.data plutovg_path_reset
  let q2 := q1.1.ensure st1
  let r := plutovg_path_parse (getBuf q2.2 q2.1.data).elements s
  ((q2.1, setElems q2.2 q2.1.data fun _ => r.1), r.2)

/-- The command sequence a Path currently denotes. -/
def pathElements (st : PathStore) (p : Path) : List PathSeg :=
  (getBuf st p.data).elements

/-- The control points of a segment, for the extents computation. -/
def segCtrlPoints : PathSeg → List Point
  | PathSeg.moveTo p => [p]
  | PathSeg.lineTo p => [p]
  | PathSeg.cubicTo p1 p2 p3 => [p1, p2, p3]
  | PathSeg.close p => [p]

/-- Modelled from the spec: plutovg_path_extents computes the bounding box of
the path's geometry, the zero rect for an empty path. Exact curve extents
need irrational root solving; the bounding box over the control points is
used, a function of the element list alone, which is what the isolation
claim depends on. -/
def plutovg_path_extents (segs : List PathSeg) : Rect :=
  match (segs.map segCtrlPoints).flatten with
  | [] => Rect.Empty
  | p :: ps =>
    let l := ps.foldl (fun a q => min a q.x) p.x
    let t := ps.foldl (fun a q => min a q.y) p.y
    let rr := ps.foldl (fun a q => max a q.x) p.x
    let bb := ps.foldl (fun a q => max a q.y) p.y
    Rect.mk l t (rr - l) (bb - t)

/-- Path::boundingRect (graphics.cpp, line 308). -/
def Path.boundingRect (p : Path) (st : PathStore) : Rect :=
  plutovg_path_extents (getBuf st p.data).elements

/-- One mutating Path operation together with its arguments. -/
inductive MutOp
  | moveTo (x y : ℚ)
  | lineTo (x y : ℚ)
  | quadTo (x1 y1 x2 y2 : ℚ)
  | cubicTo (x1 y1 x2 y2 x3 y3 : ℚ)
  | arcTo (rx ry xrot : ℚ) (laf sf : Bool) (x y : ℚ)
  | close
  | addEllipse (cx cy rx ry : ℚ)
  | addRoundRect (x y w h rx ry : ℚ)
  | addRect (x y w h : ℚ)
  | reset
  | parse (s : List Char)
  deriving DecidableEq, Repr

/-- Apply a mutating operation to a path in a store. -/
def applyOp : MutOp → Path → PathStore → Path × PathStore
  | MutOp.moveTo x y, p, st => p.moveTo x y st
  | MutOp.lineTo x y, p, st => p.lineTo x y st
  | MutOp.quadTo x1 y1 x2 y2, p, st => p.quadTo x1 y1 x2 y2 st
  | MutOp.cubicTo x1 y1 x2 y2 x3 y3, p, st => p.cubicTo x1 y1 x2 y2 x3 y3 st
  | MutOp.arcTo rx ry xrot laf sf x y, p, st => p.arcTo rx ry xrot laf sf x y st
  | MutOp.close, p, st => p.close st
  | MutOp.addEllipse cx cy rx ry, p, st => p.addEllipse cx cy rx ry st
  | MutOp.addRoundRect x y w h rx ry, p, st => p.addRoundRect x y w h rx ry st
  | MutOp.addRect x y w h, p, st => p.addRect x y w h st
  | MutOp.reset, p, st => p.reset st
  | MutOp.parse s, p, st => (p.parse s st).1


lemma getBuf_set (st : PathStore) (h : Nat) (b : PathBuffer) (j : Nat) :
    getBuf (st.set h b) j = if h = j ∧ h < st.length then b else getBuf st j := by
  unfold getBuf
  by_cases hej : h = j
  · subst hej
    by_cases hlen : h < st.length
    · rw [List.getD_eq_getElem?_getD, List.getElem?_set_self',
        List.getElem?_eq_getElem hlen]
      simp [hlen]
    · have hge : st.length ≤ h := not_lt.mp hlen
      rw [List.getD_eq_getElem?_getD, List.getElem?_set_self',
        List.getElem?_eq_none hge, List.getD_eq_getElem?_getD,
        List.getElem?_eq_none hge]
      simp [hlen]
  · rw [List.getD_eq_getElem?_getD, List.getElem?_set_ne hej,
      ← List.getD_eq_getElem?_getD]
    simp [hej]

lemma getBuf_append_one (st : PathStore) (b : PathBuffer) (j : Nat) :
    getBuf (st ++ [b]) j =
      if j < st.length then getBuf st j
      else if j = st.length then b else ⟨0, []⟩ := by
  by_cases hlt : j < st.length
  · rw [if_pos hlt]
    exact List.getD_append st [b] ⟨0, []⟩ j hlt
  · rw [if_neg hlt]
    have hge : st.length ≤ j := not_lt.mp hlt
    unfold getBuf
    rw [List.getD_append_right st [b] ⟨0, []⟩ j hge]
    by_cases he : j = st.length
    · rw [if_pos he, he]
      simp
    · rw [if_neg he]
      exact List.getD_eq_default [b] ⟨0, []⟩ (by simp; omega)

lemma getBuf_pos_lt {st : PathStore} {h : Nat}
    (hrc : 1 ≤ (getBuf st h).refcount) : h < st.length := by
  by_contra hge
  have : getBuf st h = ⟨0, []⟩ :=
    List.getD_eq_default st ⟨0, []⟩ (not_lt.mp hge)
  rw [this] at hrc
  exact absurd hrc (by norm_num)

lemma setElems_length (st : PathStore) (h : Nat) (f : List PathSeg → List PathSeg) :
    (setElems st h f).length = st.length :=
  List.length_set st h _

lemma getBuf_setElems (st : PathStore) (h : Nat) (f : List PathSeg → List PathSeg) (j : Nat) :
    getBuf (setElems st h f) j =
      if h = j ∧ h < st.length then ⟨(getBuf st h).refcount, f (getBuf st h).elements⟩
      else getBuf st j :=
  getBuf_set st h _ j

lemma setElems_refcount (st : PathStore) (h : Nat) (f : List PathSeg → List PathSeg) (j : Nat) :
    (getBuf (setElems st h f) j).refcount = (getBuf st j).refcount := by
  rw [getBuf_setElems]
  split
  · next hc => rw [hc.1]
  · rfl

lemma getBuf_incRef (st : PathStore) (h : Nat) (j : Nat) :
    getBuf (incRef st h) j =
      if h = j ∧ h < st.length then ⟨(getBuf st h).refcount + 1, (getBuf st h).elements⟩
      else getBuf st j :=
  getBuf_set st h _ j

lemma getBuf_decRef (st : PathStore) (h : Nat) (j : Nat) :
    getBuf (decRef st h) j =
      if h = j ∧ h < st.length then ⟨(getBuf st h).refcount - 1, (getBuf st h).elements⟩
      else getBuf st j :=
  getBuf_set st h _ j

lemma incRef_length (st : PathStore) (h : Nat) : (incRef st h).length = st.length :=
  List.length_set st h _

lemma decRef_length (st : PathStore) (h : Nat) : (decRef st h).length = st.length :=
  List.length_set st h _

lemma incRef_elements (st : PathStore) (h j : Nat) :
    (getBuf (incRef st h) j).elements = (getBuf st j).elements := by
  rw [getBuf_incRef]
  split
  · next hc => rw [hc.1]
  · rfl

lemma decRef_elements (st : PathStore) (h j : Nat) :
    (getBuf (decRef st h) j).elements = (getBuf st j).elements := by
  rw [getBuf_decRef]
  split
  · next hc => rw [hc.1]
  · rfl

lemma ensure_getBuf_lt (p : Path) (st : PathStore) (j : Nat) (hj : j < st.length) :
    getBuf (p.ensure st).2 j = getBuf st j := by
  unfold Path.ensure
  split
  · rfl
  · show getBuf (st ++ [_]) j = getBuf st j
    rw [getBuf_append_one, if_pos hj]

lemma ensure_refcount (p : Path) (st : PathStore) :
    (getBuf (p.ensure st).2 (p.ensure st).1.data).refcount = 1 := by
  unfold Path.ensure
  split
  · next hu =>
    rw [Path.isUnique, beq_iff_eq] at hu
    exact hu
  · show (getBuf (st ++ [_]) (⟨st.length⟩ : Path).data).refcount = 1
    rw [getBuf_append_one]
    simp

lemma ensure_handle_lt (p : Path) (st : PathStore) :
    (p.ensure st).1.data < (p.ensure st).2.length := by
  unfold Path.ensure
  split
  · next hu =>
    rw [Path.isUnique, beq_iff_eq] at hu
    exact getBuf_pos_lt (le_of_eq hu.symm)
  · show (⟨st.length⟩ : Path).data < (st ++ [_]).length
    simp

lemma ensure_length (p : Path) (st : PathStore) :
    st.length ≤ (p.ensure st).2.length := by
  unfold Path.ensure
  split
  · exact le_rfl
  · show st.length ≤ (st ++ [_]).length
    simp

lemma ensure_of_refcount_one (p : Path) (st : PathStore)
    (h : (getBuf st p.data).refcount = 1) : p.ensure st = (p, st) := by
  unfold Path.ensure
  rw [if_pos]
  rw [Path.isUnique, beq_iff_eq]
  exact h

lemma ensure_of_shared (p : Path) (st : PathStore)
    (h : 2 ≤ (getBuf st p.data).refcount) :
    p.ensure st = (⟨st.length⟩, st ++ [⟨1, (getBuf st p.data).elements⟩]) := by
  unfold Path.ensure
  rw [if_neg]
  rw [Path.isUnique, beq_iff_eq]
  omega

lemma parse_eq (p : Path) (s : List Char) (st : PathStore) :
    Path.parse p s st =
      (((p.ensure st).1,
        setElems (setElems (p.ensure st).2 (p.ensure st).1.data plutovg_path_reset)
          (p.ensure st).1.data fun _ => (plutovg_path_parse [] s).1),
       (plutovg_path_parse [] s).2) := by
  have hrc1 : (getBuf (setElems (p.ensure st).2 (p.ensure st).1.data plutovg_path_reset)
      (p.ensure st).1.data).refcount = 1 := by
    rw [setElems_refcount]
    exact ensure_refcount p st
  have h2 := ensure_of_refcount_one (p.ensure st).1 _ hrc1
  have helems : (getBuf (setElems (p.ensure st).2 (p.ensure st).1.data plutovg_path_reset)
      (p.ensure st).1.data).elements = [] := by
    rw [getBuf_setElems, if_pos ⟨rfl, ensure_handle_lt p st⟩]
    rfl
  simp only [Path.parse, h2, helems]

lemma applyOp_getBuf_preserved (op : MutOp) (p : Path) (st : PathStore) (j : Nat)
    (hj : j < st.length) (hne : (p.ensure st).1.data ≠ j) :
    getBuf (applyOp op p st).2 j = getBuf st j := by
  have hstep : ∀ f : List PathSeg → List PathSeg,
      getBuf (setElems (p.ensure st).2 (p.ensure st).1.data f) j = getBuf st j := by
    intro f
    rw [getBuf_setElems]
    rw [if_neg fun hc => hne hc.1]
    exact ensure_getBuf_lt p st j hj
  have hstep2 : ∀ f g : List PathSeg → List PathSeg,
      getBuf (setElems (setElems (p.ensure st).2 (p.ensure st).1.data f)
        (p.ensure st).1.data g) j = getBuf st j := by
    intro f g
    rw [getBuf_setElems]
    rw [if_neg fun hc => hne hc.1]
    exact hstep f
  cases op <;>
    simp only [applyOp, Path.moveTo, Path.lineTo, Path.quadTo, Path.cubicTo, Path.arcTo,
      Path.close, Path.addEllipse, Path.addRoundRect, Path.addRect, Path.reset, parse_eq] <;>
    first
      | exact hstep _
      | exact hstep2 _ _

lemma applyOp_fst (op : MutOp) (p : Path) (st : PathStore) :
    (applyOp op p st).1 = (p.ensure st).1 := by
  cases op <;>
    simp only [applyOp, Path.moveTo, Path.lineTo, Path.quadTo, Path.cubicTo, Path.arcTo,
      Path.close, Path.addEllipse, Path.addRoundRect, Path.addRect, Path.reset, parse_eq]

lemma applyOp_refcount (op : MutOp) (p : Path) (st : PathStore) :
    (getBuf (applyOp op p st).2 (applyOp op p st).1.data).refcount = 1 := by
  have hbase := ensure_refcount p st
  have h1 : ∀ f : List PathSeg → List PathSeg,
      (getBuf (setElems (p.ensure st).2 (p.ensure st).1.data f)
        (p.ensure st).1.data).refcount = 1 := by
    intro f
    rw [setElems_refcount]
    exact hbase
  have h2 : ∀ f g : List PathSeg → List PathSeg,
      (getBuf (setElems (setElems (p.ensure st).2 (p.ensure st).1.data f)
        (p.ensure st).1.data g) (p.ensure st).1.data).refcount = 1 := by
    intro f g
    rw [setElems_refcount, setElems_refcount]
    exact hbase
  cases op <;>
    simp only [applyOp, Path.moveTo, Path.lineTo, Path.quadTo, Path.cubicTo, Path.arcTo,
      Path.close, Path.addEllipse, Path.addRoundRect, Path.addRect, Path.reset, parse_eq] <;>
    first
      | exact h1 _
      | exact h2 _ _

/-- C9: immediately after any mutating Path operation the mutated path's
buffer is exclusively owned: isUnique returns true. -/
theorem path_mutation_leaves_unique (st : PathStore) (p : Path) (op : MutOp) :
    (applyOp op p st).1.isUnique (applyOp op p st).2 = true := by
  rw [Path.isUnique, beq_iff_eq]
  exact applyOp_refcount op p st


lemma plutovg_path_parse_cases (buf : List PathSeg) (s : List Char) :
    plutovg_path_parse buf s =
      ((match parsePathData s with
        | some segs => buf ++ segs
        | none => buf),
       (parsePathData s).isSome) := by
  unfold plutovg_path_parse
  cases parsePathData s <;> rfl

/-- C2: Path::parse first resets the path; a failed parse leaves it empty,
and a successful parse leaves exactly the parsed commands, with no trace of
the prior content. -/
theorem path_parse_failure_resets (p : Path) (st : PathStore) (s : List Char) :
    ((p.parse s st).2 = false →
      pathElements (p.parse s st).1.2 (p.parse s st).1.1 = []) ∧
    ((p.parse s st).2 = true →
      pathElements (p.parse s st).1.2 (p.parse s st).1.1 = (parsePathData s).getD []) := by
  have hlt2 : (p.ensure st).1.data <
      (setElems (p.ensure st).2 (p.ensure st).1.data plutovg_path_reset).length := by
    rw [setElems_length]
    exact ensure_handle_lt p st
  have helems : pathElements (p.parse s st).1.2 (p.parse s st).1.1
      = (plutovg_path_parse [] s).1 := by
    rw [parse_eq]
    unfold pathElements
    rw [getBuf_setElems, if_pos ⟨rfl, hlt2⟩]
  have hverdict : (p.parse s st).2 = (plutovg_path_parse [] s).2 := by
    rw [parse_eq]
  rw [helems, hverdict, plutovg_path_parse_cases]
  cases hpd : parsePathData s with
  | none => exact ⟨fun _ => rfl, fun hc => absurd hc (by simp)⟩
  | some segs => exact ⟨fun hc => absurd hc (by simp), fun _ => by simp⟩

/-- Store for the concrete parse witness: one uniquely owned path holding a
single MoveTo command. -/
def c2Store : PathStore := [⟨1, [PathSeg.moveTo ⟨3, 4⟩]⟩]

/-- C2 witness: parsing the malformed text X fails and leaves the path
empty; parsing the text M 1 2 succeeds and leaves exactly the parsed
command. -/
theorem path_parse_failure_resets_witness :
    ((Path.parse ⟨0⟩ ['X'] c2Store).2 = false ∧
      pathElements (Path.parse ⟨0⟩ ['X'] c2Store).1.2
        (Path.parse ⟨0⟩ ['X'] c2Store).1.1 = []) ∧
    ((Path.parse ⟨0⟩ ['M', ' ', '1', ' ', '2'] c2Store).2 = true ∧
      pathElements (Path.parse ⟨0⟩ ['M', ' ', '1', ' ', '2'] c2Store).1.2
        (Path.parse ⟨0⟩ ['M', ' ', '1', ' ', '2'] c2Store).1.1 =
          (parsePathData ['M', ' ', '1', ' ', '2']).getD []) :=
  ⟨⟨by decide, (path_parse_failure_resets ⟨0⟩ c2Store ['X']).1 (by decide)⟩,
   ⟨by decide,
     (path_parse_failure_resets ⟨0⟩ c2Store ['M', ' ', '1', ' ', '2']).2 (by decide)⟩⟩

/-- C1: copying a path (by copy construction or copy assignment) and
applying any mutating operation to the copy leaves the original path's
command sequence and bounding rect unchanged. The hypotheses state that the
store's reference counts account for the live holders of the buffers: the
original path holds a reference, and when the assigned-over path already
shares the original's buffer that buffer has at least two references. -/
theorem path_copy_on_write_isolation (st : PathStore) (p q0 : Path) (op : MutOp)
    (h1 : 1 ≤ (getBuf st p.data).refcount)
    (h2 : q0.data = p.data → 2 ≤ (getBuf st p.data).refcount) :
    (pathElements (applyOp op (p.copyCtor st).1 (p.copyCtor st).2).2 p = pathElements st p ∧
      Path.boundingRect p (applyOp op (p.copyCtor st).1 (p.copyCtor st).2).2 =
        Path.boundingRect p st) ∧
    (pathElements (applyOp op (Path.copyAssign q0 p st).1 (Path.copyAssign q0 p st).2).2 p
        = pathElements st p ∧
      Path.boundingRect p (applyOp op (Path.copyAssign q0 p st).1 (Path.copyAssign q0 p st).2).2 =
        Path.boundingRect p st) := by
  have hlt : p.data < st.length := getBuf_pos_lt h1
  have main : ∀ st1 : PathStore, st1.length = st.length →
      (getBuf st1 p.data).elements = (getBuf st p.data).elements →
      2 ≤ (getBuf st1 p.data).refcount →
      pathElements (applyOp op (⟨p.data⟩ : Path) st1).2 p = pathElements st p := by
    intro st1 hlen helems hrc
    have hens := ensure_of_shared ⟨p.data⟩ st1 hrc
    have hne : ((⟨p.data⟩ : Path).ensure st1).1.data ≠ p.data := by
      rw [hens]
      show st1.length ≠ p.data
      omega
    have hp := applyOp_getBuf_preserved op ⟨p.data⟩ st1 p.data (by omega) hne
    unfold pathElements
    rw [hp, helems]
  have hinc_rc : 2 ≤ (getBuf (incRef st p.data) p.data).refcount := by
    rw [getBuf_incRef, if_pos ⟨rfl, hlt⟩]
    show 2 ≤ (getBuf st p.data).refcount + 1
    omega
  have hdec_rc : 2 ≤ (getBuf (decRef (incRef st p.data) q0.data) p.data).refcount := by
    rw [getBuf_decRef]
    split
    · next hc =>
      rw [hc.1]
      rw [getBuf_incRef, if_pos ⟨rfl, hlt⟩]
      show 2 ≤ (getBuf st p.data).refcount + 1 - 1
      have := h2 hc.1
      omega
    · next hc => exact hinc_rc
  have hctor := main (incRef st p.data) (incRef_length st p.data)
    (incRef_elements st p.data p.data) hinc_rc
  have hassign := main (decRef (incRef st p.data) q0.data)
    (by rw [decRef_length, incRef_length])
    (by rw [decRef_elements, incRef_elements]) hdec_rc
  exact ⟨⟨hctor, congrArg plutovg_path_extents hctor⟩,
    ⟨hassign, congrArg plutovg_path_extents hassign⟩⟩

/-- Store for the concrete isolation witness: handle 0 is the original path
with one reference, handle 1 is another live path. -/
def c1Store : PathStore := [⟨1, [PathSeg.moveTo ⟨1, 2⟩]⟩, ⟨1, []⟩]

/-- C1 witness: with the original at handle 0 and a distinct path at handle
1, a lineTo on either kind of copy leaves the original's commands and
bounding rect unchanged. -/
theorem path_copy_on_write_isolation_witness :
    (1 ≤ (getBuf c1Store (⟨0⟩ : Path).data).refcount) ∧
    ((⟨1⟩ : Path).data = (⟨0⟩ : Path).data →
      2 ≤ (getBuf c1Store (⟨0⟩ : Path).data).refcount) ∧
    ((pathElements (applyOp (MutOp.lineTo 5 6) ((⟨0⟩ : Path).copyCtor c1Store).1
        ((⟨0⟩ : Path).copyCtor c1Store).2).2 ⟨0⟩ = pathElements c1Store ⟨0⟩ ∧
      Path.boundingRect ⟨0⟩ (applyOp (MutOp.lineTo 5 6) ((⟨0⟩ : Path).copyCtor c1Store).1
        ((⟨0⟩ : Path).copyCtor c1Store).2).2 = Path.boundingRect ⟨0⟩ c1Store) ∧
    (pathElements (applyOp (MutOp.lineTo 5 6) (Path.copyAssign ⟨1⟩ ⟨0⟩ c1Store).1
        (Path.copyAssign ⟨1⟩ ⟨0⟩ c1Store).2).2 ⟨0⟩ = pathElements c1Store ⟨0⟩ ∧
      Path.boundingRect ⟨0⟩ (applyOp (MutOp.lineTo 5 6) (Path.copyAssign ⟨1⟩ ⟨0⟩ c1Store).1
        (Path.copyAssign ⟨1⟩ ⟨0⟩ c1Store).2).2 = Path.boundingRect ⟨0⟩ c1Store)) :=
  ⟨by decide, by decide,
    path_copy_on_write_isolation c1Store ⟨0⟩ ⟨1⟩ (MutOp.lineTo 5 6)
      (by decide) (by decide)⟩


/-- The PathCommand enum of the public interface. -/
inductive PathCommand
  | MoveTo
  | LineTo
  | CubicTo
  | Close
  deriving DecidableEq, Repr

/-- One slot of the raw element buffer: either a command header carrying the
command tag and the total slot count of the command, or a point slot. -/
inductive PathElement
  | header (command : PathCommand) (length : Nat)
  | pt (p : Point)
  deriving DecidableEq, Repr

/-- The command tag of a segment. -/
def segCommand : PathSeg → PathCommand
  | PathSeg.moveTo _ => PathCommand.MoveTo
  | PathSeg.lineTo _ => PathCommand.LineTo
  | PathSeg.cubicTo _ _ _ => PathCommand.CubicTo
  | PathSeg.close _ => PathCommand.Close

/-- Modelled from the spec: the raw element layout returned by
plutovg_path_get_elements — each command occupies one header slot followed by
its point slots (one point for MoveTo, LineTo and Close, three for CubicTo),
the layout PathIterator::currentSegment reads at the cursor and at cursor+1
to cursor+3; the header records the command's total slot count, which is
what PathIterator::next adds to the cursor. -/
def encodeSeg : PathSeg → List PathElement
  | PathSeg.moveTo p => [PathElement.header PathCommand.MoveTo 2, PathElement.pt p]
  | PathSeg.lineTo p => [PathElement.header PathCommand.LineTo 2, PathElement.pt p]
  | PathSeg.cubicTo p1 p2 p3 =>
      [PathElement.header PathCommand.CubicTo 4,
       PathElement.pt p1, PathElement.pt p2, PathElement.pt p3]
  | PathSeg.close p => [PathElement.header PathCommand.Close 2, PathElement.pt p]

/-- The raw element buffer of a command sequence. -/
def encodePath (segs : List PathSeg) : List PathElement :=
  (segs.map encodeSeg).flatten

/-- PathIterator state (graphics.cpp, line 338): the element array, its
size, and the cursor m_index. -/
structure PathIterator where
  elements : List PathElement
  size : Nat
  index : Nat
  deriving DecidableEq, Repr

/-- PathIterator constructor (graphics.cpp, line 338): fetch the element
array of the path, set the cursor to zero. -/
def PathIterator.fromPath (p : Path) (st : PathStore) : PathIterator :=
  ⟨encodePath (pathElements st p), (encodePath (pathElements st p)).length, 0⟩

/-- Read of element[i].header.length: the slot count stored in the header at
a buffer position (a point slot misread as a header is modelled as zero). -/
def elemHeaderLength (es : List PathElement) (i : Nat) : Nat :=
  match es.getD i (PathElement.pt ⟨0, 0⟩) with
  | PathElement.header _ l => l
  | PathElement.pt _ => 0

/-- Read of element[i].header.command at a buffer position (a point slot
misread as a header is modelled as Close). -/
def elemHeaderCommand (es : List PathElement) (i : Nat) : PathCommand :=
  match es.getD i (PathElement.pt ⟨0, 0⟩) with
  | PathElement.header c _ => c
  | PathElement.pt _ => PathCommand.Close

/-- Read of element[i].point at a buffer position. -/
def elemPoint (es : List PathElement) (i : Nat) : Point :=
  match es.getD i (PathElement.pt ⟨0, 0⟩) with
  | PathElement.header _ _ => ⟨0, 0⟩
  | PathElement.pt p => p

/-- PathIterator::currentSegment (graphics.cpp, line 344): the command tag at
the cursor, and the points read from the slots after the cursor (one point
for MoveTo, LineTo and Close, three for CubicTo). -/
def PathIterator.currentSegment (it : PathIterator) : PathCommand × Point × Point × Point :=
  let c := elemHeaderCommand it.elements it.index
  match c with
  | PathCommand.CubicTo =>
      (c, elemPoint it.elements (it.index + 1), elemPoint it.elements (it.index + 2),
        elemPoint it.elements (it.index + 3))
  | _ => (c, elemPoint it.elements (it.index + 1), ⟨0, 0⟩, ⟨0, 0⟩)

/-- PathIterator::next (graphics.cpp, line 367): the cursor advances by the
slot count recorded in the current header. -/
def PathIterator.next (it : PathIterator) : PathIterator :=
  { it with index := it.index + elemHeaderLength it.elements it.index }

/-- C8 counterexample: on the path holding a single MoveTo command, next()
advances the cursor by more than one slot. -/
theorem pathIterator_next_one_slot_false :
    ¬ ((PathIterator.fromPath ⟨0⟩ [⟨1, [PathSeg.moveTo ⟨0, 0⟩]⟩]).next.index
        = (PathIterator.fromPath ⟨0⟩ [⟨1, [PathSeg.moveTo ⟨0, 0⟩]⟩]).index + 1) := by
  decide

/-- C8 (amended): at the start of any command of the buffer, next() advances
the cursor by the command's encoded slot count: the header slot plus the
point slots, so two slots for MoveTo, LineTo and Close and four for
CubicTo. -/
theorem pathIterator_next_advance (done rest : List PathSeg) (s : PathSeg) :
    (PathIterator.next
        ⟨encodePath (done ++ s :: rest), (encodePath (done ++ s :: rest)).length,
          (encodePath done).length⟩).index
      = (encodePath done).length + (encodeSeg s).length ∧
    (encodeSeg s).length =
      (match s with
       | PathSeg.cubicTo _ _ _ => 4
       | _ => 2) := by
  have hsplit : encodePath (done ++ s :: rest)
      = encodePath done ++ (encodeSeg s ++ encodePath rest) := by
    unfold encodePath
    rw [List.map_append, List.flatten_append, List.map_cons, List.flatten_cons]
  have hlen : elemHeaderLength (encodePath (done ++ s :: rest)) (encodePath done).length
      = (encodeSeg s).length := by
    rw [hsplit]
    unfold elemHeaderLength
    rw [List.getD_append_right _ _ _ _ le_rfl, Nat.sub_self]
    cases s <;> rfl
  constructor
  · show (encodePath done).length +
        elemHeaderLength (encodePath (done ++ s :: rest)) (encodePath done).length
      = (encodePath done).length + (encodeSeg s).length
    rw [hlen]
  · cases s <;> rfl


/-- The pixel surface a Canvas owns: dimensions, row stride and the raw
pixel words. The stride is measured in 32-bit pixel units (the byte pitch
divided by four; rows of a 32-bit surface are four-byte aligned), and may
exceed the width. -/
structure Surface where
  width : Nat
  height : Nat
  stride : Nat
  data : List Nat
  deriving DecidableEq, Repr

/-- The per-pixel body of Canvas::convertToLuminanceMask (graphics.cpp,
line 533): extract the color channels, compute (2r + 3g + b) / 6 and store
it as the alpha of an otherwise zero pixel. -/
def luminancePixel (pixel : Nat) : Nat :=
  ((2 * ((pixel >>> 16) &&& 0xFF) + 3 * ((pixel >>> 8) &&& 0xFF)
      + ((pixel >>> 0) &&& 0xFF)) / 6) <<< 24

/-- The luminance value stored by luminancePixel, before the shift into the
alpha byte. -/
def lumVal (pixel : Nat) : Nat :=
  (2 * ((pixel >>> 16) &&& 0xFF) + 3 * ((pixel >>> 8) &&& 0xFF)
    + ((pixel >>> 0) &&& 0xFF)) / 6

/-- Alpha channel of an ARGB32 pixel word. -/
def alphaOf (pixel : Nat) : Nat := (pixel >>> 24) &&& 0xFF

/-- Red channel of an ARGB32 pixel word, the read the source performs. -/
def redOf (pixel : Nat) : Nat := (pixel >>> 16) &&& 0xFF

/-- Green channel of an ARGB32 pixel word, the read the source performs. -/
def greenOf (pixel : Nat) : Nat := (pixel >>> 8) &&& 0xFF

/-- Blue channel of an ARGB32 pixel word, the read the source performs. -/
def blueOf (pixel : Nat) : Nat := (pixel >>> 0) &&& 0xFF

/-- The inner loop of Canvas::convertToLuminanceMask over one row: for x
from 0 to width-1, replace the word at base + x. -/
def lumRowPass (base : Nat) (d : List Nat) (width : Nat) : List Nat :=
  (List.range width).foldl
    (fun acc xx => acc.set (base + xx) (luminancePixel (acc.getD (base + xx) 0))) d

/-- The outer loop of Canvas::convertToLuminanceMask: for y from 0 to
height-1, run the row pass with base stride * y. -/
def lumAllRows (stride width : Nat) (d : List Nat) (height : Nat) : List Nat :=
  (List.range height).foldl (fun acc yy => lumRowPass (stride * yy) acc width) d

/-- Canvas::convertToLuminanceMask (graphics.cpp, line 524): the in-place
row-major double loop over the owned surface, addressing each row at
stride * y. -/
def Surface.convertToLuminanceMask (s : Surface) : Surface :=
  { s with data := lumAllRows s.stride s.width s.data s.height }

lemma getD_set_general {α : Type} (l : List α) (i : Nat) (a : α) (j : Nat) (dflt : α) :
    (l.set i a).getD j dflt = if i = j ∧ i < l.length then a else l.getD j dflt := by
  by_cases hej : i = j
  · subst hej
    by_cases hlen : i < l.length
    · rw [List.getD_eq_getElem?_getD, List.getElem?_set_self',
        List.getElem?_eq_getElem hlen]
      simp [hlen]
    · have hge : l.length ≤ i := not_lt.mp hlen
      rw [List.getD_eq_getElem?_getD, List.getElem?_set_self',
        List.getElem?_eq_none hge, List.getD_eq_getElem?_getD,
        List.getElem?_eq_none hge]
      simp [hlen]
  · rw [List.getD_eq_getElem?_getD, List.getElem?_set_ne hej,
      ← List.getD_eq_getElem?_getD]
    simp [hej]

lemma luminancePixel_zero : luminancePixel 0 = 0 := by decide

lemma lumRowPass_length (base : Nat) (d : List Nat) (width : Nat) :
    (lumRowPass base d width).length = d.length := by
  induction width with
  | zero => rfl
  | succ w ih =>
    unfold lumRowPass
    rw [List.range_succ, List.foldl_append]
    show ((lumRowPass base d w).set _ _).length = d.length
    rw [List.length_set]
    exact ih

lemma lumRowPass_getD (base : Nat) (d : List Nat) (width i : Nat) :
    (lumRowPass base d width).getD i 0 =
      if base ≤ i ∧ i < base + width then luminancePixel (d.getD i 0)
      else d.getD i 0 := by
  induction width with
  | zero =>
    have hc : ¬(base ≤ i ∧ i < base + 0) := by omega
    rw [if_neg hc]
    rfl
  | succ w ih =>
    unfold lumRowPass
    rw [List.range_succ, List.foldl_append]
    show ((lumRowPass base d w).set (base + w)
        (luminancePixel ((lumRowPass base d w).getD (base + w) 0))).getD i 0 = _
    rw [getD_set_general, lumRowPass_length]
    by_cases he : base + w = i
    · subst he
      have hout : ¬(base ≤ base + w ∧ base + w < base + w) := by omega
      have hin : base ≤ base + w ∧ base + w < base + (w + 1) := by omega
      rw [if_pos hin]
      rw [ih, if_neg hout]
      by_cases hlen : base + w < d.length
      · rw [if_pos ⟨rfl, hlen⟩]
      · rw [if_neg fun hc => hlen hc.2]
        rw [List.getD_eq_default d 0 (not_lt.mp hlen)]
        exact luminancePixel_zero.symm
    · rw [if_neg fun hc => he hc.1]
      rw [ih]
      by_cases hio : base ≤ i ∧ i < base + w
      · rw [if_pos hio, if_pos (by omega)]
      · rw [if_neg hio, if_neg (by omega)]

lemma lumAllRows_getD_untouched (stride width : Nat) (d : List Nat) (height i : Nat)
    (hi : ∀ yy, yy < height → ¬(stride * yy ≤ i ∧ i < stride * yy + width)) :
    (lumAllRows stride width d height).getD i 0 = d.getD i 0 := by
  induction height with
  | zero => rfl
  | succ hh ih =>
    unfold lumAllRows
    rw [List.range_succ, List.foldl_append]
    show (lumRowPass (stride * hh) (lumAllRows stride width d hh) width).getD i 0 = _
    rw [lumRowPass_getD, if_neg (hi hh (Nat.lt_succ_self hh))]
    exact ih fun yy hyy => hi yy (Nat.lt_succ_of_lt hyy)

lemma lumAllRows_getD_hit (stride width : Nat) (d : List Nat) (height xx yy : Nat)
    (hws : width ≤ stride) (hx : xx < width) (hy : yy < height) :
    (lumAllRows stride width d height).getD (stride * yy + xx) 0
      = luminancePixel (d.getD (stride * yy + xx) 0) := by
  induction height with
  | zero => omega
  | succ hh ih =>
    unfold lumAllRows
    rw [List.range_succ, List.foldl_append]
    show (lumRowPass (stride * hh) (lumAllRows stride width d hh) width).getD
        (stride * yy + xx) 0 = _
    rw [lumRowPass_getD]
    by_cases hyh : yy = hh
    · subst hyh
      rw [if_pos (by omega)]
      rw [lumAllRows_getD_untouched]
      intro zz hzz
      have hm1 : stride * (zz + 1) = stride * zz + stride := Nat.mul_succ stride zz
      have hm2 : stride * (zz + 1) ≤ stride * yy := Nat.mul_le_mul_left stride hzz
      omega
    · have hylt : yy < hh := by omega
      rw [if_neg ?_]
      · exact ih hylt
      · have hm1 : stride * (yy + 1) = stride * yy + stride := Nat.mul_succ stride yy
        have hm2 : stride * (yy + 1) ≤ stride * hh := Nat.mul_le_mul_left stride hylt
        omega

lemma lumVal_lt (p : Nat) : lumVal p < 256 := by
  have hr : (p >>> 16) &&& 0xFF ≤ 255 := Nat.and_le_right
  have hg : (p >>> 8) &&& 0xFF ≤ 255 := Nat.and_le_right
  have hb : (p >>> 0) &&& 0xFF ≤ 255 := Nat.and_le_right
  have hnum : 2 * ((p >>> 16) &&& 0xFF) + 3 * ((p >>> 8) &&& 0xFF)
      + ((p >>> 0) &&& 0xFF) ≤ 1530 := by omega
  calc lumVal p ≤ 1530 / 6 := Nat.div_le_div_right hnum
    _ < 256 := by norm_num

lemma and_255_eq_mod (x : Nat) : x &&& 0xFF = x % 256 := by
  have h := Nat.and_pow_two_sub_one_eq_mod x 8
  norm_num at h
  exact h

lemma luminancePixel_channels (p : Nat) :
    alphaOf (luminancePixel p) = (2 * redOf p + 3 * greenOf p + blueOf p) / 6 ∧
    redOf (luminancePixel p) = 0 ∧
    greenOf (luminancePixel p) = 0 ∧
    blueOf (luminancePixel p) = 0 := by
  have hlum : luminancePixel p = lumVal p * 2 ^ 24 := Nat.shiftLeft_eq (lumVal p) 24
  have hval : lumVal p = (2 * redOf p + 3 * greenOf p + blueOf p) / 6 := rfl
  refine ⟨?_, ?_, ?_, ?_⟩
  · rw [alphaOf, hlum, Nat.shiftRight_eq_div_pow,
      Nat.mul_div_cancel _ (by norm_num : 0 < 2 ^ 24), and_255_eq_mod,
      Nat.mod_eq_of_lt (lumVal_lt p), hval]
  · rw [redOf, hlum, Nat.shiftRight_eq_div_pow]
    have hsplit : lumVal p * 2 ^ 24 = lumVal p * 2 ^ 8 * 2 ^ 16 := by ring
    rw [hsplit, Nat.mul_div_cancel _ (by norm_num : 0 < 2 ^ 16), and_255_eq_mod]
    show lumVal p * 256 % 256 = 0
    exact Nat.mul_mod_left _ _
  · rw [greenOf, hlum, Nat.shiftRight_eq_div_pow]
    have hsplit : lumVal p * 2 ^ 24 = lumVal p * 2 ^ 16 * 2 ^ 8 := by ring
    rw [hsplit, Nat.mul_div_cancel _ (by norm_num : 0 < 2 ^ 8), and_255_eq_mod]
    have hsplit2 : lumVal p * 2 ^ 16 = lumVal p * 2 ^ 8 * 256 := by ring
    rw [hsplit2]
    exact Nat.mul_mod_left _ _
  · rw [blueOf, hlum, Nat.shiftRight_zero, and_255_eq_mod]
    have hsplit : lumVal p * 2 ^ 24 = lumVal p * 2 ^ 16 * 256 := by ring
    rw [hsplit]
    exact Nat.mul_mod_left _ _

/-- C5: convertToLuminanceMask replaces each pixel of the surface, addressed
row-major through the stride, by a pixel whose alpha is the luminance
(2r + 3g + b) / 6 of its color channels and whose color channels are all
zero. -/
theorem convertToLuminanceMask_pixels (s : Surface) (xx yy : Nat)
    (hws : s.width ≤ s.stride) (hx : xx < s.width) (hy : yy < s.height) :
    s.convertToLuminanceMask.data.getD (s.stride * yy + xx) 0
        = luminancePixel (s.data.getD (s.stride * yy + xx) 0) ∧
    alphaOf (s.convertToLuminanceMask.data.getD (s.stride * yy + xx) 0)
        = (2 * redOf (s.data.getD (s.stride * yy + xx) 0)
            + 3 * greenOf (s.data.getD (s.stride * yy + xx) 0)
            + blueOf (s.data.getD (s.stride * yy + xx) 0)) / 6 ∧
    redOf (s.convertToLuminanceMask.data.getD (s.stride * yy + xx) 0) = 0 ∧
    greenOf (s.convertToLuminanceMask.data.getD (s.stride * yy + xx) 0) = 0 ∧
    blueOf (s.convertToLuminanceMask.data.getD (s.stride * yy + xx) 0) = 0 := by
  have hmain : s.convertToLuminanceMask.data.getD (s.stride * yy + xx) 0
      = luminancePixel (s.data.getD (s.stride * yy + xx) 0) :=
    lumAllRows_getD_hit s.stride s.width s.data s.height xx yy hws hx hy
  have hch := luminancePixel_channels (s.data.getD (s.stride * yy + xx) 0)
  rw [hmain]
  exact ⟨rfl, hch.1, hch.2.1, hch.2.2.1, hch.2.2.2⟩

/-- Surface for the concrete luminance witness: 2-by-2 opaque pure red, with
a stride of three words, so each row has one padding word. -/
def c5Surface : Surface :=
  ⟨2, 2, 3, [0xFFFF0000, 0xFFFF0000, 0, 0xFFFF0000, 0xFFFF0000, 0]⟩

/-- C5 witness: on the opaque pure-red surface the converted pixel at
row 1, column 1 has alpha 85 and zero color channels. -/
theorem convertToLuminanceMask_pixels_witness :
    (c5Surface.width ≤ c5Surface.stride ∧ 1 < c5Surface.width ∧ 1 < c5Surface.height) ∧
    alphaOf (c5Surface.convertToLuminanceMask.data.getD (c5Surface.stride * 1 + 1) 0) = 85 ∧
    redOf (c5Surface.convertToLuminanceMask.data.getD (c5Surface.stride * 1 + 1) 0) = 0 ∧
    greenOf (c5Surface.convertToLuminanceMask.data.getD (c5Surface.stride * 1 + 1) 0) = 0 ∧
    blueOf (c5Surface.convertToLuminanceMask.data.getD (c5Surface.stride * 1 + 1) 0) = 0 :=
  ⟨⟨by decide, by decide, by decide⟩,
    by
      have h := convertToLuminanceMask_pixels c5Surface 1 1 (by decide) (by decide) (by decide)
      exact ⟨h.2.1.trans (by decide), h.2.2.1, h.2.2.2.1, h.2.2.2.2⟩⟩

end lunasvg
